import Mathlib

/-!
Shallow embedding of the `nextjs-crons` scheduling-and-dispatch engine
(`src/runner.ts`, class `CronRunner`) and proofs about its behaviour.

Platform boundaries (the file system, `JSON.parse`, `node-cron.validate`,
the `fetch` transport and wall-clock time) are passed in as explicit
parameters; everything else is translated line by line from the source.
-/

namespace Runner

/-- A configured cron job, `CronJob` from `src/types.ts`:
`{ path: string, schedule: string }`. -/
structure CronJob where
  path : String
  schedule : String
deriving DecidableEq, Repr

/-- `VercelCronConfig` from `src/types.ts`: the parsed configuration after
the unchecked TS cast in `loadConfig` (`JSON.parse(content) as VercelCronConfig`). -/
structure VercelCronConfig where
  crons : List CronJob
deriving DecidableEq, Repr

/-- `CronRunnerStats` from `src/types.ts`. Instants (`Date`) are modelled as
`Nat` milliseconds; `lastExecution?: Date` becomes `Option Nat`. -/
structure CronRunnerStats where
  totalJobs : Nat
  successfulExecutions : Nat
  failedExecutions : Nat
  lastExecution : Option Nat
deriving DecidableEq, Repr

/-- `CronExecutionResult` from `src/types.ts`. Optional fields
(`statusCode?`, `error?`) become `Option`; `timestamp: Date` and
`duration` become `Nat`. -/
structure CronExecutionResult where
  path : String
  schedule : String
  success : Bool
  statusCode : Option Nat
  error : Option String
  timestamp : Nat
  duration : Nat
deriving DecidableEq, Repr

/-- The errors thrown by `CronRunner` (`throw new Error(...)` in
`src/runner.ts`), one constructor per distinct throw site, carrying the
data interpolated into the message.  `nullConfigAccess` stands for the raw
`TypeError` raised by evaluating `config.crons` when `JSON.parse` returned
`null` (it is not one of the runner's own errors; the `catch` in
`loadConfig` rethrows it unwrapped because it is not a `SyntaxError`). -/
inductive CronError where
  | configNotFound (configPath : String)
  | configParseError (configPath : String) (parserMessage : String)
  | configShapeError
  | nullConfigAccess (configPath : String)
  | noMatchingJobs
  | invalidSchedule (path : String) (schedule : String)
  | jobNotFound (path : String)
deriving DecidableEq, Repr

/-- The `message` of each thrown `Error`, verbatim from `src/runner.ts`.
For `nullConfigAccess` the text is produced by the JS engine, not by the
repository; a descriptive placeholder is used. -/
def CronError.message : CronError → String
  | .configNotFound p => "Config file not found: " ++ p
  | .configParseError p m => "Invalid JSON in " ++ p ++ ": " ++ m
  | .configShapeError => "Invalid vercel.json: missing \"crons\" array"
  | .nullConfigAccess _ => "TypeError: cannot read crons of null"
  | .noMatchingJobs => "No cron jobs found matching the filter"
  | .invalidSchedule p s => "Invalid cron schedule for " ++ p ++ ": " ++ s
  | .jobNotFound p => "Cron job not found: " ++ p

/-! ### JSON values and JS coercions, for `loadConfig` -/

/-- JSON values, the possible results of `JSON.parse`. -/
inductive Json where
  | null
  | bool (b : Bool)
  | num (n : Int)
  | str (s : String)
  | arr (elems : List Json)
  | obj (fields : List (String × Json))

/-- JS property read `j.k`: a field of an object, `undefined` (`none`)
otherwise.  Property access on `null` is handled (as a thrown `TypeError`)
at its use site in `loadConfig`. -/
def jsGetField (j : Json) (k : String) : Option Json :=
  match j with
  | .obj fields => (fields.find? (fun f => f.1 == k)).map (fun f => f.2)
  | _ => none

/-- JS truthiness of a possibly-`undefined` value, as tested by
`!config.crons`. -/
def jsTruthy : Option Json → Bool
  | none => false
  | some .null => false
  | some (.bool b) => b
  | some (.num n) => n != 0
  | some (.str s) => s != ""
  | some (.arr _) => true
  | some (.obj _) => true

/-- `Array.isArray` on a possibly-`undefined` value. -/
def jsIsArray : Option Json → Bool
  | some (.arr _) => true
  | _ => false

/-- `CronRunner.loadConfig` (`src/runner.ts`).  The file system is the
`file` argument (`none` = `fs.existsSync` false, `some content` = the text
read by `fs.readFileSync`); `JSON.parse` is the `parse` argument, whose
`Except.error` carries the `SyntaxError` message.  A parse result of
`null` makes the shape check `!config.crons` itself throw a `TypeError`,
which the `catch` rethrows unwrapped (it is not a `SyntaxError`). -/
def loadConfig (configPath : String) (file : Option String)
    (parse : String → Except String Json) : Except CronError Json :=
  match file with
  | none => .error (.configNotFound configPath)
  | some content =>
    match parse content with
    | .error m => .error (.configParseError configPath m)
    | .ok .null => .error (.nullConfigAccess configPath)
    | .ok config =>
      if !(jsTruthy (jsGetField config "crons")) || !(jsIsArray (jsGetField config "crons")) then
        .error .configShapeError
      else
        .ok config

/-! ### Path filtering (`filterJobs`) and the regex it builds -/

/-- ECMAScript line terminators, the characters a `.` (and hence the
substituted `.*`) of a flagless regex does not match. -/
def isLineTerminator (c : Char) : Bool :=
  c == '\n' || c == '\r' || c == '\u2028' || c == '\u2029'

/-- The substitution `filter.replace(/\*/g, ".*")` performed by
`filterJobs`: every `*` becomes the two characters `.*`; every other
character — regex metacharacters included — is kept verbatim, with no
escaping inserted. -/
def replaceStar (pat : String) : String :=
  String.mk (pat.data.foldr
    (fun c acc => if c = '*' then '.' :: '*' :: acc else c :: acc) [])

/-- One atom of the spec-side reading of the anchored regex
`^pattern$` for a filter in the regex-ordinary fragment (filters whose
characters are regex-ordinary apart from `.` and `*` — the characters
that occur in job paths).  `star` is a substituted `.*`; `dot` is a `.`
already in the filter, reaching the engine unescaped as any-one-character;
every other character of such a filter is a `lit`eral.  For filters with
further live metacharacters the engine is constrained only through the
`regex` boundary parameter of `filterJobsR`. -/
inductive RAtom where
  | lit (c : Char)
  | dot
  | star
deriving DecidableEq, Repr

/-- Interpret a regex-ordinary-fragment filter string as its atom list. -/
def compileFilter (filter : String) : List RAtom :=
  filter.data.map (fun c => if c = '*' then .star else if c = '.' then .dot else .lit c)

/-- Denotational semantics of the anchored regex: `RMatch atoms s` holds
iff the whole character list `s` matches.  Following the flagless
ECMAScript semantics of `.`, the `dot` rule consumes one
non-line-terminator character and the `star` rule (a substituted `.*`)
consumes an arbitrary substring free of line terminators — a `*` does not
match across newlines. -/
inductive RMatch : List RAtom → List Char → Prop where
  | nil : RMatch [] []
  | lit (c : Char) (ps : List RAtom) (s : List Char) :
      RMatch ps s → RMatch (.lit c :: ps) (c :: s)
  | dot (c : Char) (ps : List RAtom) (s : List Char) :
      isLineTerminator c = false → RMatch ps s → RMatch (.dot :: ps) (c :: s)
  | star (t s : List Char) (ps : List RAtom) :
      (∀ c ∈ t, isLineTerminator c = false) →
      RMatch ps s → RMatch (.star :: ps) (t ++ s)

/-- The suffixes of `s` reachable from `s` by consuming only
non-line-terminator characters: the candidate remainders after a `.*`. -/
def starSuffixes : List Char → List (List Char)
  | [] => [[]]
  | c :: s => (c :: s) :: (if isLineTerminator c then [] else starSuffixes s)

/-- Executable anchored regex matcher (the role of `regex.test` on the
constructed `^pattern$`), for the regex-ordinary fragment: `star` matches
when some suffix reachable without crossing a line terminator matches the
rest of the pattern. -/
def rmatch : List RAtom → List Char → Bool
  | [], s => s.isEmpty
  | .lit c :: ps, s =>
    match s with
    | [] => false
    | d :: s2 => c == d && rmatch ps s2
  | .dot :: ps, s =>
    match s with
    | [] => false
    | d :: s2 => !(isLineTerminator d) && rmatch ps s2
  | .star :: ps, s => (starSuffixes s).any (fun t => rmatch ps t)

/-- `CronRunner.filterJobs` (`src/runner.ts`) with the platform regex
boundary explicit: `regex` models `new RegExp` composed with `.test` —
`.error` is the `SyntaxError` the constructor throws on a malformed
source (propagating out of the calling operation), `.ok test` the
compiled membership test.  The guard `!this.options.filter` is JS
truthiness, so an empty filter string also returns the list unchanged;
otherwise the engine receives `^` + the `*`-substituted filter + `$`,
all other characters unescaped. -/
def filterJobsR (regex : String → Except Unit (String → Bool))
    (filter : Option String) (jobs : List CronJob) : Except Unit (List CronJob) :=
  match filter with
  | none => .ok jobs
  | some pat =>
    if pat = "" then .ok jobs
    else
      match regex ("^" ++ replaceStar pat ++ "$") with
      | .error e => .error e
      | .ok test => .ok (jobs.filter (fun job => test job.path))

/-- The filtered job set as consumed by the lifecycle operations
(`start`, `executeAll`, `listJobs`), i.e. `filterJobsR` specialised to a
filter the engine accepts with the regex-ordinary-fragment semantics;
the engine boundary itself, with arbitrary patterns and the
constructor's error path, is `filterJobsR`. -/
def filterJobs (filter : Option String) (jobs : List CronJob) : List CronJob :=
  match filter with
  | none => jobs
  | some pat =>
    if pat = "" then jobs
    else jobs.filter (fun job => rmatch (compileFilter pat) job.path.data)

/-! ### Dispatcher (`executeCron`) -/

/-- The outcome of the `fetchFn(url, ...)` call: either a response object
(with its `ok` flag and `status`), or a thrown/rejected value — an `Error`
object carrying a message, or a non-`Error` value. -/
inductive FetchOutcome where
  | response (ok : Bool) (status : Nat)
  | thrown (isErrorObject : Bool) (msg : String)
deriving DecidableEq, Repr

/-- The ambient inputs of one dispatch: the transport outcome, the
`new Date()` taken at the start, and the measured wall-clock duration. -/
structure DispatchEnv where
  outcome : FetchOutcome
  timestamp : Nat
  duration : Nat
deriving DecidableEq, Repr

/-- Header construction inside `executeCron`: always `Content-Type`, plus
`Authorization: Bearer <secret>` when `this.options.cronSecret` is truthy
(a non-empty string). -/
def buildHeaders (cronSecret : String) : List (String × String) :=
  ("Content-Type", "application/json") ::
    (if cronSecret != "" then [("Authorization", "Bearer " ++ cronSecret)] else [])

/-- An outbound HTTP request as assembled by `executeCron`:
`fetchFn(url, { method: "GET", headers })` with
`url = baseUrl + job.path`. -/
structure Request where
  url : String
  method : String
  headers : List (String × String)
deriving DecidableEq, Repr

/-- The request `executeCron` issues for a job. -/
def dispatchRequest (baseUrl cronSecret : String) (job : CronJob) : Request :=
  { url := baseUrl ++ job.path
    method := "GET"
    headers := buildHeaders cronSecret }

/-- Resolution of the secret in the constructor
(`options.cronSecret || process.env.CRON_SECRET || ""`): JS `||` skips
falsy values, i.e. `undefined` and the empty string. -/
def resolveCronSecret (optSecret envSecret : Option String) : String :=
  match optSecret with
  | some s => if s = "" then (match envSecret with
      | some t => if t = "" then "" else t
      | none => "") else s
  | none => match envSecret with
    | some t => if t = "" then "" else t
    | none => ""

/-- `CronRunner.executeCron` (`src/runner.ts`), stats threading made
explicit.  On a response: increment exactly one counter by the `ok` flag,
then set `lastExecution`, and return a result with `statusCode` and no
`error`.  In the `catch` branch: increment `failedExecutions` (without
touching `lastExecution`) and return a result with `error` set to the
thrown `Error`'s message — or `"Unknown error"` for a non-`Error` value —
and no `statusCode`.  Verbose body capture is log-only and does not affect
any of these fields. -/
def executeCron (env : DispatchEnv) (job : CronJob) (stats : CronRunnerStats) :
    CronExecutionResult × CronRunnerStats :=
  match env.outcome with
  | .response ok status =>
    let stats1 :=
      if ok then
        { stats with successfulExecutions := stats.successfulExecutions + 1 }
      else
        { stats with failedExecutions := stats.failedExecutions + 1 }
    let stats2 := { stats1 with lastExecution := some env.timestamp }
    ({ path := job.path
       schedule := job.schedule
       success := ok
       statusCode := some status
       error := none
       timestamp := env.timestamp
       duration := env.duration }, stats2)
  | .thrown isErrorObject msg =>
    let stats1 := { stats with failedExecutions := stats.failedExecutions + 1 }
    let errorMessage := if isErrorObject then msg else "Unknown error"
    ({ path := job.path
       schedule := job.schedule
       success := false
       statusCode := none
       error := some errorMessage
       timestamp := env.timestamp
       duration := env.duration }, stats1)

/-! ### Engine state and the four public operations -/

/-- The mutable fields of a `CronRunner` instance: the Active Timer Set
`tasks: Map<string, cron.ScheduledTask>` (a JS `Map`, modelled as an
insertion-ordered association list; the opaque `ScheduledTask` handle is
identified by the job it was created for), the `stats` accumulator, and
the cached `config?: VercelCronConfig`. -/
structure RunnerState where
  tasks : List (String × CronJob)
  stats : CronRunnerStats
  config : Option VercelCronConfig
deriving DecidableEq, Repr

/-- The state of a freshly constructed runner. -/
def initialState : RunnerState :=
  { tasks := []
    stats := { totalJobs := 0, successfulExecutions := 0, failedExecutions := 0,
               lastExecution := none }
    config := none }

/-- JS `Map.prototype.set`: overwrite in place if the key is present,
append otherwise. -/
def mapSet (m : List (String × CronJob)) (k : String) (v : CronJob) :
    List (String × CronJob) :=
  match m with
  | [] => [(k, v)]
  | (k1, v1) :: rest =>
    if k1 = k then (k, v) :: rest else (k1, v1) :: mapSet rest k v

/-- The registration loop of `CronRunner.start`: for each job in order,
first `validateCronSchedule` (a throw aborts the loop, leaving the state
as mutated so far), then `cron.schedule` and `this.tasks.set`.
`validate` is `node-cron`'s `cron.validate`. -/
def startLoop (validate : String → Bool) (jobs : List CronJob) (st : RunnerState) :
    Except (CronError × RunnerState) RunnerState :=
  match jobs with
  | [] => .ok st
  | job :: rest =>
    if !(validate job.schedule) then
      .error (.invalidSchedule job.path job.schedule, st)
    else
      startLoop validate rest { st with tasks := mapSet st.tasks job.path job }

/-- `CronRunner.start` (`src/runner.ts`).  `load` is the result the call
to `this.loadConfig()` produces now (a fresh read of the backing file; a
load failure throws before `this.config` is assigned).  An error carries
the instance state as already mutated when the throw happened. -/
def start (validate : String → Bool) (filter : Option String)
    (load : Except CronError VercelCronConfig) (st : RunnerState) :
    Except (CronError × RunnerState) RunnerState :=
  match load with
  | .error e => .error (e, st)
  | .ok cfg =>
    let st1 := { st with config := some cfg }
    let jobs := filterJobs filter cfg.crons
    if jobs.length = 0 then .error (.noMatchingJobs, st1)
    else
      let st2 := { st1 with stats := { st1.stats with totalJobs := jobs.length } }
      startLoop validate jobs st2

/-- `CronRunner.stop` (`src/runner.ts`): iterate the task map calling
`task.stop()` on each handle (first component: the handles stopped, in
map iteration order), then `this.tasks.clear()`. -/
def stop (st : RunnerState) : List (String × CronJob) × RunnerState :=
  (st.tasks, { st with tasks := [] })

/-- The dispatch loop of `CronRunner.executeAll`: jobs are dispatched
sequentially, the `i`-th dispatch drawing its transport outcome,
timestamp and duration from `envs i`. -/
def executeAllLoop (envs : Nat → DispatchEnv) (i : Nat) (jobs : List CronJob)
    (stats : CronRunnerStats) : List CronExecutionResult × CronRunnerStats :=
  match jobs with
  | [] => ([], stats)
  | job :: rest =>
    let r := executeCron (envs i) job stats
    let rs := executeAllLoop envs (i + 1) rest r.2
    (r.1 :: rs.1, rs.2)

/-- `CronRunner.executeAll` (`src/runner.ts`): fresh config load, filter,
empty-set check, then one dispatch per job in job-list order. -/
def executeAll (filter : Option String) (envs : Nat → DispatchEnv)
    (load : Except CronError VercelCronConfig) (st : RunnerState) :
    Except (CronError × RunnerState) (List CronExecutionResult × RunnerState) :=
  match load with
  | .error e => .error (e, st)
  | .ok cfg =>
    let st1 := { st with config := some cfg }
    let jobs := filterJobs filter cfg.crons
    if jobs.length = 0 then .error (.noMatchingJobs, st1)
    else
      let r := executeAllLoop envs 0 jobs st1.stats
      .ok (r.1, { st1 with stats := r.2 })

/-- `CronRunner.executeOne` (`src/runner.ts`): fresh config load, then
`this.config.crons.find((j) => j.path === path)` on the unfiltered job
list (the filter option plays no part), `JobNotFound` when absent, else a
single dispatch. -/
def executeOne (env : DispatchEnv) (load : Except CronError VercelCronConfig)
    (path : String) (st : RunnerState) :
    Except (CronError × RunnerState) (CronExecutionResult × RunnerState) :=
  match load with
  | .error e => .error (e, st)
  | .ok cfg =>
    let st1 := { st with config := some cfg }
    match cfg.crons.find? (fun j => j.path == path) with
    | none => .error (.jobNotFound path, st1)
    | some job =>
      let r := executeCron env job st1.stats
      .ok (r.1, { st1 with stats := r.2 })

/-- `CronRunner.getStats`: a snapshot copy of the stats. -/
def getStats (st : RunnerState) : CronRunnerStats :=
  st.stats

/-- `CronRunner.listJobs` (`src/runner.ts`): reuse `this.config` when one
is already in memory, otherwise load; then apply the filter. -/
def listJobs (filter : Option String) (load : Except CronError VercelCronConfig)
    (st : RunnerState) :
    Except (CronError × RunnerState) (List CronJob × RunnerState) :=
  match st.config with
  | some cfg => .ok (filterJobs filter cfg.crons, st)
  | none =>
    match load with
    | .error e => .error (e, st)
    | .ok cfg => .ok (filterJobs filter cfg.crons, { st with config := some cfg })

/-! ### Correctness of the filter matcher -/

/-- Membership in `starSuffixes`: exactly the decompositions a `.*` can
produce, i.e. the suffixes whose consumed prefix is free of line
terminators. -/
theorem mem_starSuffixes (t : List Char) :
    ∀ s, t ∈ starSuffixes s ↔
      ∃ pre, pre ++ t = s ∧ ∀ c ∈ pre, isLineTerminator c = false := by
  intro s
  induction s with
  | nil =>
    constructor
    · intro h
      have ht : t = [] := by simpa [starSuffixes] using h
      exact ⟨[], by simp [ht], by simp⟩
    · rintro ⟨pre, hpre, _⟩
      have := List.append_eq_nil.1 hpre
      simp [starSuffixes, this.2]
  | cons c s ih =>
    constructor
    · intro h
      rw [starSuffixes] at h
      rcases List.mem_cons.1 h with h1 | h2
      · exact ⟨[], by simp [h1], by simp⟩
      · by_cases hterm : isLineTerminator c
        · rw [if_pos hterm] at h2
          simp at h2
        · rw [if_neg hterm] at h2
          obtain ⟨pre, hpre, hall⟩ := ih.1 h2
          refine ⟨c :: pre, by simp [hpre], ?_⟩
          intro x hx
          rcases List.mem_cons.1 hx with rfl | hx2
          · simpa using hterm
          · exact hall x hx2
    · rintro ⟨pre, hpre, hall⟩
      cases pre with
      | nil =>
        simp at hpre
        rw [starSuffixes]
        exact List.mem_cons.2 (Or.inl hpre)
      | cons c1 pre2 =>
        rw [List.cons_append] at hpre
        obtain ⟨rfl, hpre2⟩ := List.cons.inj hpre
        have hterm : isLineTerminator c1 = false := hall c1 (by simp)
        rw [starSuffixes]
        simp only [hterm, Bool.false_eq_true, if_false]
        exact List.mem_cons.2 (Or.inr (ih.2
          ⟨pre2, hpre2, fun x hx => hall x (List.mem_cons.2 (Or.inr hx))⟩))

/-- The executable matcher decides exactly the anchored-match semantics
`RMatch`. -/
theorem rmatch_iff_RMatch (ps : List RAtom) : ∀ s, rmatch ps s = true ↔ RMatch ps s := by
  induction ps with
  | nil =>
    intro s
    constructor
    · intro h
      cases s with
      | nil => exact RMatch.nil
      | cons d s2 => simp [rmatch] at h
    · intro h
      cases h
      rfl
  | cons p ps ih =>
    intro s
    cases p with
    | lit c =>
      cases s with
      | nil =>
        constructor
        · intro h
          simp [rmatch] at h
        · intro h
          cases h
      | cons d s2 =>
        constructor
        · intro h
          simp [rmatch] at h
          obtain ⟨rfl, h2⟩ := h
          exact RMatch.lit _ ps s2 ((ih s2).1 h2)
        · intro h
          cases h with
          | lit _ _ _ hm =>
            simp [rmatch]
            exact (ih s2).2 hm
    | dot =>
      cases s with
      | nil =>
        constructor
        · intro h
          simp [rmatch] at h
        · intro h
          cases h
      | cons d s2 =>
        constructor
        · intro h
          simp [rmatch] at h
          exact RMatch.dot d ps s2 h.1 ((ih s2).1 h.2)
        · intro h
          cases h with
          | dot _ _ _ hterm hm =>
            simp [rmatch, hterm]
            exact (ih s2).2 hm
    | star =>
      constructor
      · intro h
        simp only [rmatch, List.any_eq_true] at h
        obtain ⟨t, ht, hm⟩ := h
        obtain ⟨pre, rfl, hall⟩ := (mem_starSuffixes t _).1 ht
        exact RMatch.star pre t ps hall ((ih t).1 hm)
      · intro h
        cases h with
        | star t s2 _ hall hm =>
          simp only [rmatch, List.any_eq_true]
          exact ⟨s2, (mem_starSuffixes s2 (t ++ s2)).2 ⟨t, rfl, hall⟩, (ih s2).2 hm⟩

/-- C4 (amended): with no pattern configured (or the falsy empty
pattern) the filter returns the job list unchanged.  With a pattern
configured, the engine receives the anchored source `^pattern$` with
every `*` replaced by `.*` and every other character — metacharacters
included — unescaped (the `replaceStar` characterisation); if the engine
rejects that source, the regex constructor's error propagates instead of
a job list being returned; otherwise exactly the jobs whose path the
compiled regex accepts are kept, in original order.  When the compiled
test realises the regex-ordinary-fragment semantics, the kept jobs are
exactly those whose whole path matches with each `*` standing for an
arbitrary line-terminator-free substring. -/
theorem C4_filterJobs_regex_boundary (regex : String → Except Unit (String → Bool))
    (jobs : List CronJob) (pat : String) (hpat : pat ≠ "") :
    (filterJobsR regex none jobs = .ok jobs) ∧
    (filterJobsR regex (some "") jobs = .ok jobs) ∧
    (∀ e, regex ("^" ++ replaceStar pat ++ "$") = .error e →
      filterJobsR regex (some pat) jobs = .error e) ∧
    (∀ test, regex ("^" ++ replaceStar pat ++ "$") = .ok test →
      filterJobsR regex (some pat) jobs
          = .ok (jobs.filter (fun job => test job.path)) ∧
      List.Sublist (jobs.filter (fun job => test job.path)) jobs) ∧
    (∀ test, regex ("^" ++ replaceStar pat ++ "$") = .ok test →
      (∀ path : String, test path = rmatch (compileFilter pat) path.data) →
      ∀ job, job ∈ jobs.filter (fun j => test j.path)
        ↔ job ∈ jobs ∧ RMatch (compileFilter pat) job.path.data) ∧
    (∀ ps s, rmatch ps s = true ↔ RMatch ps s) ∧
    (replaceStar "" = "" ∧ ∀ c s, (replaceStar (String.mk (c :: s))).data
      = (if c = '*' then ['.', '*'] else [c]) ++ (replaceStar (String.mk s)).data) := by
  refine ⟨rfl, rfl, ?_, ?_, ?_, rmatch_iff_RMatch, rfl, ?_⟩
  · intro e he
    simp [filterJobsR, hpat, he]
  · intro test ht
    exact ⟨by simp [filterJobsR, hpat, ht], List.filter_sublist jobs⟩
  · intro test ht hconf job
    simp only [List.mem_filter, hconf, rmatch_iff_RMatch]
  · intro c s
    by_cases h : c = '*' <;> simp [replaceStar, h]

/-- Witness for C4 at the spec test fixture: an engine that accepts the
substituted anchored source `^/api/crons/notifications/.*$` with the
fragment semantics keeps exactly the one matching job, in order. -/
theorem C4_filterJobs_regex_boundary_witness :
    filterJobsR
        (fun src => if src = "^/api/crons/notifications/.*$"
          then .ok (fun path =>
            rmatch (compileFilter "/api/crons/notifications/*") path.data)
          else .error ())
        (some "/api/crons/notifications/*")
        [⟨"/api/crons/test1", "* * * * *"⟩, ⟨"/api/crons/test2", "0 8 * * *"⟩,
         ⟨"/api/crons/notifications/test3", "*/5 * * * *"⟩]
      = .ok [⟨"/api/crons/notifications/test3", "*/5 * * * *"⟩] ∧
    ("/api/crons/notifications/*" : String) ≠ "" :=
  ⟨(((C4_filterJobs_regex_boundary
      (fun src => if src = "^/api/crons/notifications/.*$"
        then .ok (fun path =>
          rmatch (compileFilter "/api/crons/notifications/*") path.data)
        else .error ())
      [⟨"/api/crons/test1", "* * * * *"⟩, ⟨"/api/crons/test2", "0 8 * * *"⟩,
       ⟨"/api/crons/notifications/test3", "*/5 * * * *"⟩]
      "/api/crons/notifications/*" (by decide)).2.2.2.1
      (fun path => rmatch (compileFilter "/api/crons/notifications/*") path.data)
      rfl).1).trans rfl,
   by decide⟩

/-- C4 counterexample, refuting the claim as stated at two concrete
inputs.  First, a `*` does not match every substring: the flagless
ECMAScript `.*` never crosses a line terminator, so under the filter `*`
(compiled source `^.*$`) a job whose path contains a newline is dropped,
though its whole path is one substring.  Second, a malformed pattern such
as `(` (compiled source `^($`) makes the regex constructor throw, so no
kept-list is returned at all. -/
theorem C4_filterJobs_regex_boundary_counterexample :
    rmatch (compileFilter "*") (String.data "a\nb") = false ∧
    filterJobsR
        (fun src => if src = "^.*$"
          then .ok (fun path => rmatch (compileFilter "*") path.data)
          else .error ())
        (some "*") [⟨"a\nb", "0 0 * * *"⟩]
      = .ok [] ∧
    ([] : List CronJob) ≠ [⟨"a\nb", "0 0 * * *"⟩] ∧
    filterJobsR (fun src => if src = "^($" then .error () else .ok (fun _ => true))
        (some "(") [⟨"/api/crons/test1", "* * * * *"⟩]
      = .error () :=
  ⟨by decide, rfl, by decide, rfl⟩

/-! ### Stop: idempotent, total, stats-preserving -/

/-- C8: from any engine state, `stop` stops every handle of the Active
Timer Set (first component: the handles it stops, in map order), leaves
the set empty, changes neither the stats nor the cached config, and a
second `stop` stops zero handles and changes nothing — so calling it
from Idle or twice in a row is a safe no-op. -/
theorem C8_stop_idempotent_total (st : RunnerState) :
    (stop st).1 = st.tasks ∧
    (stop st).2.tasks = [] ∧
    (stop st).2.stats = st.stats ∧
    (stop st).2.config = st.config ∧
    stop (stop st).2 = ([], (stop st).2) :=
  ⟨rfl, rfl, rfl, rfl, rfl⟩

/-! ### Request construction and the Authorization header -/

/-- C9: every dispatch request is a GET carrying
`Content-Type: application/json`, and carries
`Authorization: Bearer <secret>` exactly when the resolved secret
(explicit option, else environment fallback, else empty) is non-empty;
with neither source set, no `Authorization` header is present. -/
theorem C9_request_auth_header (optSecret envSecret : Option String)
    (baseUrl : String) (job : CronJob) :
    (dispatchRequest baseUrl (resolveCronSecret optSecret envSecret) job).method = "GET" ∧
    ("Content-Type", "application/json")
      ∈ (dispatchRequest baseUrl (resolveCronSecret optSecret envSecret) job).headers ∧
    (("Authorization", "Bearer " ++ resolveCronSecret optSecret envSecret)
        ∈ (dispatchRequest baseUrl (resolveCronSecret optSecret envSecret) job).headers
      ↔ resolveCronSecret optSecret envSecret ≠ "") ∧
    ((∃ v, ("Authorization", v)
        ∈ (dispatchRequest baseUrl (resolveCronSecret optSecret envSecret) job).headers)
      ↔ resolveCronSecret optSecret envSecret ≠ "") ∧
    (∀ s, s ≠ "" → resolveCronSecret (some s) envSecret = s) ∧
    (∀ t, t ≠ "" → resolveCronSecret none (some t) = t) ∧
    resolveCronSecret none none = "" ∧
    resolveCronSecret (some "") none = "" := by
  refine ⟨rfl, ?_, ?_, ?_, ?_, ?_, rfl, rfl⟩
  · simp [dispatchRequest, buildHeaders]
  · by_cases h : resolveCronSecret optSecret envSecret = "" <;>
      simp [dispatchRequest, buildHeaders, h]
  · by_cases h : resolveCronSecret optSecret envSecret = "" <;>
      simp [dispatchRequest, buildHeaders, h]
  · intro s hs
    simp [resolveCronSecret, hs]
  · intro t ht
    simp [resolveCronSecret, ht]

/-- Witness for C9 with the secret `"abc"` configured explicitly and no
environment fallback: the header `Authorization: Bearer abc` is present. -/
theorem C9_request_auth_header_witness :
    ("Authorization", "Bearer abc")
      ∈ (dispatchRequest "http://localhost:3000"
          (resolveCronSecret (some "abc") none) ⟨"/api/crons/test1", "* * * * *"⟩).headers ∧
    resolveCronSecret (some "abc") none ≠ "" := by
  have h := C9_request_auth_header (some "abc") none "http://localhost:3000"
    ⟨"/api/crons/test1", "* * * * *"⟩
  have hne : resolveCronSecret (some "abc") none ≠ "" := by decide
  exact ⟨h.2.2.1.2 hne, hne⟩

/-! ### Dispatcher: stats updates and result classification -/

/-- The `DispatchResult` component of a dispatch does not depend on the
incoming stats accumulator. -/
theorem executeCron_fst_stats_indep (env : DispatchEnv) (job : CronJob)
    (st1 st2 : CronRunnerStats) :
    (executeCron env job st1).1 = (executeCron env job st2).1 := by
  cases h : env.outcome <;> simp [executeCron, h]

/-- A dispatch result always carries the dispatched job's path and
schedule. -/
theorem executeCron_fst_path (env : DispatchEnv) (job : CronJob)
    (st : CronRunnerStats) :
    (executeCron env job st).1.path = job.path ∧
    (executeCron env job st).1.schedule = job.schedule := by
  cases h : env.outcome <;> simp [executeCron, h]

/-- C2 (amended): every dispatch leaves `totalJobs` alone and increments
exactly one of the two execution counters by exactly one — the success
counter iff the result is a success — but `lastExecution` is set to the
dispatch timestamp only when an HTTP response was obtained; a dispatch
that ends in a thrown error leaves `lastExecution` unchanged. -/
theorem C2_dispatch_stats_update (env : DispatchEnv) (job : CronJob)
    (stats : CronRunnerStats) :
    (executeCron env job stats).2.totalJobs = stats.totalJobs ∧
    (executeCron env job stats).2.successfulExecutions
        + (executeCron env job stats).2.failedExecutions
      = stats.successfulExecutions + stats.failedExecutions + 1 ∧
    ((executeCron env job stats).1.success = true →
      (executeCron env job stats).2.successfulExecutions = stats.successfulExecutions + 1 ∧
      (executeCron env job stats).2.failedExecutions = stats.failedExecutions) ∧
    ((executeCron env job stats).1.success = false →
      (executeCron env job stats).2.failedExecutions = stats.failedExecutions + 1 ∧
      (executeCron env job stats).2.successfulExecutions = stats.successfulExecutions) ∧
    (∀ ok status, env.outcome = .response ok status →
      (executeCron env job stats).2.lastExecution = some env.timestamp) ∧
    (∀ isE m, env.outcome = .thrown isE m →
      (executeCron env job stats).2.lastExecution = stats.lastExecution) := by
  cases h : env.outcome with
  | response ok status =>
    cases ok <;> simp [executeCron, h] <;> omega
  | thrown isE m =>
    simp [executeCron, h]
    omega

/-- Witness for C2 at a concrete successful dispatch. -/
theorem C2_dispatch_stats_update_witness :
    (executeCron ⟨.response true 200, 7, 12⟩ ⟨"/api/crons/test1", "* * * * *"⟩
        ⟨0, 4, 2, none⟩).2.successfulExecutions = 5 ∧
    (executeCron ⟨.response true 200, 7, 12⟩ ⟨"/api/crons/test1", "* * * * *"⟩
        ⟨0, 4, 2, none⟩).2.lastExecution = some 7 := by
  have h := C2_dispatch_stats_update ⟨.response true 200, 7, 12⟩
    ⟨"/api/crons/test1", "* * * * *"⟩ ⟨0, 4, 2, none⟩
  exact ⟨(h.2.2.1 (by decide)).1, h.2.2.2.2.1 true 200 rfl⟩

/-- C2 counterexample: a dispatch that ends in a thrown network error
(taken at timestamp 5) increments `failedExecutions` but does not set
`lastExecution` to the dispatch timestamp — the `catch` branch of
`executeCron` never assigns `this.stats.lastExecution`. -/
theorem C2_dispatch_stats_update_counterexample :
    (executeCron ⟨.thrown true "Network error", 5, 3⟩ ⟨"/api/crons/test1", "* * * * *"⟩
        ⟨0, 0, 0, none⟩).2.failedExecutions = 1 ∧
    (executeCron ⟨.thrown true "Network error", 5, 3⟩ ⟨"/api/crons/test1", "* * * * *"⟩
        ⟨0, 0, 0, none⟩).2.lastExecution ≠ some 5 := by
  decide

/-! ### executeAll: one result per filtered job, in order -/

/-- The dispatch loop produces exactly one result per job. -/
theorem executeAllLoop_length (envs : Nat → DispatchEnv) (jobs : List CronJob) :
    ∀ i stats, (executeAllLoop envs i jobs stats).1.length = jobs.length := by
  induction jobs with
  | nil => intro i stats; rfl
  | cons job rest ih =>
    intro i stats
    simp [executeAllLoop, ih]

/-- The `k`-th result of the dispatch loop started at index `i` is the
dispatch of the `k`-th job under environment `envs (i + k)` (its fields
are independent of the threaded stats). -/
theorem executeAllLoop_get (envs : Nat → DispatchEnv) (jobs : List CronJob) :
    ∀ i stats k (h1 : k < (executeAllLoop envs i jobs stats).1.length)
      (h2 : k < jobs.length),
      (executeAllLoop envs i jobs stats).1.get ⟨k, h1⟩
        = (executeCron (envs (i + k)) (jobs.get ⟨k, h2⟩) initialState.stats).1 := by
  induction jobs with
  | nil =>
    intro i stats k h1 h2
    exact absurd h2 (Nat.not_lt_zero k)
  | cons job rest ih =>
    intro i stats k h1 h2
    cases k with
    | zero =>
      simpa [executeAllLoop] using
        executeCron_fst_stats_indep (envs i) job stats initialState.stats
    | succ k =>
      have h1' : k < (executeAllLoop envs (i + 1) rest
          (executeCron (envs i) job stats).2).1.length := by
        simpa [executeAllLoop] using Nat.lt_of_succ_lt_succ h1
      have h2' : k < rest.length := Nat.lt_of_succ_lt_succ h2
      have := ih (i + 1) (executeCron (envs i) job stats).2 k h1' h2'
      simpa [executeAllLoop, Nat.add_assoc, Nat.add_comm 1 k] using this

/-- C3: a dispatch that obtains an HTTP response yields
`success = ok`, `statusCode = status` and no `error` string (even when
not ok); a dispatch whose call throws yields `success = false`, no
`statusCode`, and `error` equal to the thrown `Error`'s message, or
`"Unknown error"` for a thrown non-`Error` value.  On success,
`executeAll` returns exactly one such result per filtered job, in
job-list order, the `i`-th drawn from the `i`-th transport outcome. -/
theorem C3_dispatch_classification (env : DispatchEnv) (job : CronJob)
    (stats : CronRunnerStats) (filter : Option String) (envs : Nat → DispatchEnv)
    (cfg : VercelCronConfig) (st : RunnerState) :
    (∀ ok status, env.outcome = .response ok status →
      (executeCron env job stats).1.success = ok ∧
      (executeCron env job stats).1.statusCode = some status ∧
      (executeCron env job stats).1.error = none) ∧
    (∀ m, env.outcome = .thrown true m →
      (executeCron env job stats).1.success = false ∧
      (executeCron env job stats).1.statusCode = none ∧
      (executeCron env job stats).1.error = some m) ∧
    (∀ m, env.outcome = .thrown false m →
      (executeCron env job stats).1.success = false ∧
      (executeCron env job stats).1.statusCode = none ∧
      (executeCron env job stats).1.error = some "Unknown error") ∧
    (∀ results st2, executeAll filter envs (.ok cfg) st = .ok (results, st2) →
      results.length = (filterJobs filter cfg.crons).length ∧
      ∀ k (h1 : k < results.length) (h2 : k < (filterJobs filter cfg.crons).length),
        results.get ⟨k, h1⟩
          = (executeCron (envs k) ((filterJobs filter cfg.crons).get ⟨k, h2⟩)
              initialState.stats).1) := by
  refine ⟨?_, ?_, ?_, ?_⟩
  · intro ok status h
    simp [executeCron, h]
  · intro m h
    simp [executeCron, h]
  · intro m h
    simp [executeCron, h]
  · intro results st2 h
    by_cases hz : (filterJobs filter cfg.crons).length = 0
    · simp [executeAll, hz] at h
    · simp only [executeAll, hz, if_false] at h
      obtain ⟨hr, _⟩ := Prod.mk.injEq .. ▸ (Except.ok.inj h)
      subst hr
      constructor
      · exact executeAllLoop_length envs (filterJobs filter cfg.crons) 0 st.stats
      · intro k h1 h2
        simpa using executeAllLoop_get envs (filterJobs filter cfg.crons) 0 st.stats k h1 h2

/-- Witness for C3 at the spec test fixture: three jobs, a mocked
transport returning ok-200, then not-ok-500, then throwing a network
error, yield results `success = [true, false, false]`,
`statusCode = [200, 500, none]`. -/
theorem C3_dispatch_classification_witness :
    (executeCron ⟨.response true 200, 1, 1⟩ ⟨"/api/crons/test1", "* * * * *"⟩
        initialState.stats).1.success = true ∧
    (executeCron ⟨.response false 500, 2, 1⟩ ⟨"/api/crons/test2", "0 8 * * *"⟩
        initialState.stats).1.statusCode = some 500 ∧
    (executeCron ⟨.response false 500, 2, 1⟩ ⟨"/api/crons/test2", "0 8 * * *"⟩
        initialState.stats).1.error = none ∧
    (executeCron ⟨.thrown true "Network error", 3, 1⟩
        ⟨"/api/crons/notifications/test3", "*/5 * * * *"⟩
        initialState.stats).1.error = some "Network error" := by
  have h1 := C3_dispatch_classification ⟨.response true 200, 1, 1⟩
    ⟨"/api/crons/test1", "* * * * *"⟩ initialState.stats none (fun _ => ⟨.response true 200, 1, 1⟩)
    ⟨[]⟩ initialState
  have h2 := C3_dispatch_classification ⟨.response false 500, 2, 1⟩
    ⟨"/api/crons/test2", "0 8 * * *"⟩ initialState.stats none (fun _ => ⟨.response true 200, 1, 1⟩)
    ⟨[]⟩ initialState
  have h3 := C3_dispatch_classification ⟨.thrown true "Network error", 3, 1⟩
    ⟨"/api/crons/notifications/test3", "*/5 * * * *"⟩ initialState.stats none
    (fun _ => ⟨.response true 200, 1, 1⟩) ⟨[]⟩ initialState
  exact ⟨(h1.1 true 200 rfl).1, (h2.1 false 500 rfl).2.1, (h2.1 false 500 rfl).2.2,
    (h3.2.1 "Network error" rfl).2.2⟩

/-! ### start: interleaved validation and registration -/

/-- Registration of a list of jobs into the task map, in order
(the `this.tasks.set(job.path, task)` calls of the `start` loop). -/
def registerAll (jobs : List CronJob) (m : List (String × CronJob)) :
    List (String × CronJob) :=
  jobs.foldl (fun acc j => mapSet acc j.path j) m

/-- Behaviour of the registration loop, split on whether some job fails
validation: if every schedule validates, all jobs are registered; if not,
the loop throws `InvalidSchedule` for the first invalid job, leaving
exactly the jobs before it registered — and never touches stats or the
cached config. -/
theorem startLoop_spec (validate : String → Bool) (jobs : List CronJob) :
    ∀ st : RunnerState,
      (jobs.dropWhile (fun j => validate j.schedule) = [] →
        startLoop validate jobs st
          = .ok { st with tasks := registerAll jobs st.tasks }) ∧
      (∀ bad rest, jobs.dropWhile (fun j => validate j.schedule) = bad :: rest →
        validate bad.schedule = false ∧
        startLoop validate jobs st
          = .error (.invalidSchedule bad.path bad.schedule,
              { st with tasks :=
                  registerAll (jobs.takeWhile (fun j => validate j.schedule)) st.tasks })) := by
  induction jobs with
  | nil =>
    intro st
    refine ⟨fun _ => rfl, fun bad rest h => by simp at h⟩
  | cons job rest0 ih =>
    intro st
    by_cases hv : validate job.schedule
    · constructor
      · intro h
        rw [List.dropWhile_cons_of_pos (by simpa using hv)] at h
        have := (ih { st with tasks := mapSet st.tasks job.path job }).1 h
        simpa [startLoop, hv, registerAll] using this
      · intro bad rest h
        rw [List.dropWhile_cons_of_pos (by simpa using hv)] at h
        have := ((ih { st with tasks := mapSet st.tasks job.path job }).2 bad rest) h
        refine ⟨this.1, ?_⟩
        simpa [startLoop, hv, registerAll, List.takeWhile_cons] using this.2
    · constructor
      · intro h
        rw [List.dropWhile_cons_of_neg (by simpa using hv)] at h
        exact absurd h (by simp)
      · intro bad rest h
        rw [List.dropWhile_cons_of_neg (by simpa using hv)] at h
        obtain ⟨rfl, rfl⟩ := List.cons.inj h
        refine ⟨by simpa using hv, ?_⟩
        simp [startLoop, hv, registerAll, List.takeWhile_cons]

/-- `start` on a successfully loaded config whose filtered set has a
first invalid job: the result, with all state mutations that survive the
throw. -/
theorem start_first_invalid (validate : String → Bool) (filter : Option String)
    (cfg : VercelCronConfig) (st : RunnerState) (bad : CronJob) (rest : List CronJob)
    (hdrop : (filterJobs filter cfg.crons).dropWhile (fun j => validate j.schedule)
      = bad :: rest) :
    validate bad.schedule = false ∧
    start validate filter (.ok cfg) st
      = .error (.invalidSchedule bad.path bad.schedule,
          { tasks :=
              registerAll ((filterJobs filter cfg.crons).takeWhile
                (fun j => validate j.schedule)) st.tasks,
            stats := { st.stats with totalJobs := (filterJobs filter cfg.crons).length },
            config := some cfg }) := by
  have hne : (filterJobs filter cfg.crons).length ≠ 0 := by
    intro h0
    rw [List.length_eq_zero] at h0
    rw [h0] at hdrop
    simp at hdrop
  have hloop := (startLoop_spec validate (filterJobs filter cfg.crons)
    { st with
        stats := { st.stats with totalJobs := (filterJobs filter cfg.crons).length },
        config := some cfg }).2 bad rest hdrop
  refine ⟨hloop.1, ?_⟩
  simp only [start, hne, if_false]
  exact hloop.2

/-- C1 (amended): if some job of the non-empty filtered set fails
schedule validation, `start` raises `InvalidSchedule` naming the first
offending job's path and schedule string — but registration is
interleaved with validation, not all-or-nothing: after the failed start
the Active Timer Set holds exactly the timers for the jobs preceding the
first invalid one (so a subsequent `stop` clears exactly those handles,
zero only when the very first filtered job is invalid). -/
theorem C1_start_invalid_schedule (validate : String → Bool) (filter : Option String)
    (cfg : VercelCronConfig) (st : RunnerState) (bad : CronJob) (rest : List CronJob)
    (hdrop : (filterJobs filter cfg.crons).dropWhile (fun j => validate j.schedule)
      = bad :: rest) :
    validate bad.schedule = false ∧
    start validate filter (.ok cfg) st
      = .error (.invalidSchedule bad.path bad.schedule,
          { tasks :=
              registerAll ((filterJobs filter cfg.crons).takeWhile
                (fun j => validate j.schedule)) st.tasks,
            stats := { st.stats with totalJobs := (filterJobs filter cfg.crons).length },
            config := some cfg }) ∧
    (∃ a b, (CronError.invalidSchedule bad.path bad.schedule).message
      = a ++ bad.path ++ b ++ bad.schedule) ∧
    (stop { tasks :=
              registerAll ((filterJobs filter cfg.crons).takeWhile
                (fun j => validate j.schedule)) st.tasks,
            stats := { st.stats with totalJobs := (filterJobs filter cfg.crons).length },
            config := some cfg }).1
      = registerAll ((filterJobs filter cfg.crons).takeWhile
          (fun j => validate j.schedule)) st.tasks := by
  obtain ⟨h1, h2⟩ := start_first_invalid validate filter cfg st bad rest hdrop
  refine ⟨h1, h2, ⟨"Invalid cron schedule for ", ": ", ?_⟩, rfl⟩
  simp [CronError.message]

/-- C1 counterexample, refuting the claim as stated: with a valid first
job and an invalid second one, the failed `start` leaves the first job's
timer registered — the Active Timer Set is not empty, and a subsequent
`stop` clears one handle, not zero. -/
theorem C1_start_invalid_schedule_counterexample :
    start (fun s => s == "* * * * *") none
        (.ok ⟨[⟨"/api/crons/a", "* * * * *"⟩, ⟨"/api/crons/b", "invalid"⟩]⟩)
        initialState
      = .error (.invalidSchedule "/api/crons/b" "invalid",
          { tasks := [("/api/crons/a", ⟨"/api/crons/a", "* * * * *"⟩)],
            stats := { totalJobs := 2, successfulExecutions := 0,
                       failedExecutions := 0, lastExecution := none },
            config := some ⟨[⟨"/api/crons/a", "* * * * *"⟩, ⟨"/api/crons/b", "invalid"⟩]⟩ }) ∧
    [("/api/crons/a", CronJob.mk "/api/crons/a" "* * * * *")] ≠ [] ∧
    (stop { tasks := [("/api/crons/a", ⟨"/api/crons/a", "* * * * *"⟩)],
            stats := { totalJobs := 2, successfulExecutions := 0,
                       failedExecutions := 0, lastExecution := none },
            config := some ⟨[⟨"/api/crons/a", "* * * * *"⟩, ⟨"/api/crons/b", "invalid"⟩]⟩ }).1.length
      = 1 :=
  ⟨rfl, by simp, rfl⟩

/-- Witness for C1 at the same concrete input, applying the amended
theorem with its hypothesis discharged. -/
theorem C1_start_invalid_schedule_witness :
    (fun s => s == "* * * * *") (CronJob.mk "/api/crons/b" "invalid").schedule = false ∧
    start (fun s => s == "* * * * *") none
        (.ok ⟨[⟨"/api/crons/a", "* * * * *"⟩, ⟨"/api/crons/b", "invalid"⟩]⟩)
        initialState
      = .error (.invalidSchedule (CronJob.mk "/api/crons/b" "invalid").path
            (CronJob.mk "/api/crons/b" "invalid").schedule,
          { tasks :=
              registerAll ((filterJobs none
                (VercelCronConfig.mk [⟨"/api/crons/a", "* * * * *"⟩,
                  ⟨"/api/crons/b", "invalid"⟩]).crons).takeWhile
                (fun j => (fun s => s == "* * * * *") j.schedule)) initialState.tasks,
            stats := { initialState.stats with
              totalJobs := (filterJobs none
                (VercelCronConfig.mk [⟨"/api/crons/a", "* * * * *"⟩,
                  ⟨"/api/crons/b", "invalid"⟩]).crons).length },
            config := some ⟨[⟨"/api/crons/a", "* * * * *"⟩, ⟨"/api/crons/b", "invalid"⟩]⟩ }) :=
  ⟨(C1_start_invalid_schedule (fun s => s == "* * * * *") none
      ⟨[⟨"/api/crons/a", "* * * * *"⟩, ⟨"/api/crons/b", "invalid"⟩]⟩ initialState
      ⟨"/api/crons/b", "invalid"⟩ [] (by decide)).1,
   (C1_start_invalid_schedule (fun s => s == "* * * * *") none
      ⟨[⟨"/api/crons/a", "* * * * *"⟩, ⟨"/api/crons/b", "invalid"⟩]⟩ initialState
      ⟨"/api/crons/b", "invalid"⟩ [] (by decide)).2.1⟩

/-- C10: on every `start` whose filtered set is non-empty,
`stats.totalJobs` is assigned the size of the filtered set before any
schedule is validated or timer registered; a `start` that then raises
`InvalidSchedule` still leaves `totalJobs` equal to that count — the
stats are not rolled back on failure. -/
theorem C10_totalJobs_set_before_validation (validate : String → Bool)
    (filter : Option String) (cfg : VercelCronConfig) (st : RunnerState)
    (hbad : ∃ j ∈ filterJobs filter cfg.crons, validate j.schedule = false) :
    ∃ p s st2, start validate filter (.ok cfg) st
        = .error (.invalidSchedule p s, st2) ∧
      st2.stats.totalJobs = (filterJobs filter cfg.crons).length := by
  obtain ⟨j, hj, hjv⟩ := hbad
  have hdropne : (filterJobs filter cfg.crons).dropWhile
      (fun j => validate j.schedule) ≠ [] := by
    intro h
    have := List.dropWhile_eq_nil_iff.1 h j hj
    simp [hjv] at this
  obtain ⟨bad, rest, hdrop⟩ :
      ∃ bad rest, (filterJobs filter cfg.crons).dropWhile
        (fun j => validate j.schedule) = bad :: rest := by
    cases h : (filterJobs filter cfg.crons).dropWhile (fun j => validate j.schedule) with
    | nil => exact absurd h hdropne
    | cons bad rest => exact ⟨bad, rest, rfl⟩
  obtain ⟨_, h2⟩ := start_first_invalid validate filter cfg st bad rest hdrop
  exact ⟨bad.path, bad.schedule, _, h2, rfl⟩

/-- Witness for C10 at a concrete input with an invalid second schedule:
the failed `start` leaves `totalJobs = 2`. -/
theorem C10_totalJobs_set_before_validation_witness :
    ∃ p s st2, start (fun s => s == "* * * * *") none
        (.ok ⟨[⟨"/api/crons/a", "* * * * *"⟩, ⟨"/api/crons/b", "bad"⟩]⟩)
        initialState
      = .error (.invalidSchedule p s, st2) ∧
      st2.stats.totalJobs
        = (filterJobs none (VercelCronConfig.mk [⟨"/api/crons/a", "* * * * *"⟩,
            ⟨"/api/crons/b", "bad"⟩]).crons).length :=
  C10_totalJobs_set_before_validation (fun s => s == "* * * * *") none
    ⟨[⟨"/api/crons/a", "* * * * *"⟩, ⟨"/api/crons/b", "bad"⟩]⟩ initialState
    ⟨⟨"/api/crons/b", "bad"⟩, by decide, by decide⟩

/-! ### Config loading -/

/-- A `crons` value that is an array is in particular truthy. -/
theorem jsTruthy_of_isArray (f : Option Json) (h : jsIsArray f = true) :
    jsTruthy f = true := by
  match f with
  | some (.arr xs) => rfl
  | none => simp [jsIsArray] at h
  | some .null => simp [jsIsArray] at h
  | some (.bool _) => simp [jsIsArray] at h
  | some (.num _) => simp [jsIsArray] at h
  | some (.str _) => simp [jsIsArray] at h
  | some (.obj _) => simp [jsIsArray] at h

/-- C5 (amended): loading fails with `ConfigNotFound` when the file does
not exist, with `ConfigParseError` — whose message carries the underlying
parser's message — when the text is not well-formed JSON, and with
`ConfigShapeError` ("missing crons array") when parsing succeeds with a
non-`null` top-level value lacking an array-typed `crons` field;
otherwise the parsed config is returned.  (When the parsed top-level
value is `null` the shape check itself raises a raw `TypeError`, rethrown
unwrapped — see the counterexample.) -/
theorem C5_loadConfig_errors (configPath : String)
    (parse : String → Except String Json) :
    (loadConfig configPath none parse = .error (.configNotFound configPath)) ∧
    (∀ content m, parse content = .error m →
      loadConfig configPath (some content) parse
          = .error (.configParseError configPath m) ∧
      ∃ pre, (CronError.configParseError configPath m).message = pre ++ m) ∧
    (∀ content cfg, parse content = .ok cfg → cfg ≠ .null →
      jsIsArray (jsGetField cfg "crons") = false →
      loadConfig configPath (some content) parse = .error .configShapeError ∧
      ∃ a b, CronError.configShapeError.message
        = a ++ "missing \"crons\" array" ++ b) ∧
    (∀ content cfg, parse content = .ok cfg →
      jsIsArray (jsGetField cfg "crons") = true →
      loadConfig configPath (some content) parse = .ok cfg) := by
  refine ⟨rfl, ?_, ?_, ?_⟩
  · intro content m h
    exact ⟨by simp [loadConfig, h], ⟨"Invalid JSON in " ++ configPath ++ ": ", rfl⟩⟩
  · intro content cfg h hnull hnotarr
    refine ⟨?_, ⟨"Invalid vercel.json: ", "", rfl⟩⟩
    cases cfg with
    | null => exact absurd rfl hnull
    | bool b => simp [loadConfig, h, jsGetField, jsTruthy, jsIsArray]
    | num n => simp [loadConfig, h, jsGetField, jsTruthy, jsIsArray]
    | str s => simp [loadConfig, h, jsGetField, jsTruthy, jsIsArray]
    | arr xs => simp [loadConfig, h, jsGetField, jsTruthy, jsIsArray]
    | obj fields => simp [loadConfig, h, hnotarr]
  · intro content cfg h hisarr
    have htruthy := jsTruthy_of_isArray _ hisarr
    cases cfg with
    | null => simp [jsGetField, jsIsArray] at hisarr
    | bool b => simp [jsGetField, jsIsArray] at hisarr
    | num n => simp [jsGetField, jsIsArray] at hisarr
    | str s => simp [jsGetField, jsIsArray] at hisarr
    | arr xs => simp [jsGetField, jsIsArray] at hisarr
    | obj fields => simp [loadConfig, h, hisarr, htruthy]

/-- Witness for C5 across the three failure shapes and the success
shape, at concrete files and parser outcomes. -/
theorem C5_loadConfig_errors_witness :
    loadConfig "./vercel.json" none (fun _ => .error "eof")
      = .error (.configNotFound "./vercel.json") ∧
    loadConfig "./vercel.json" (some "not json") (fun _ => .error "Unexpected token")
      = .error (.configParseError "./vercel.json" "Unexpected token") ∧
    loadConfig "./vercel.json" (some "x") (fun _ => .ok (Json.obj [("other", .str "data")]))
      = .error .configShapeError ∧
    loadConfig "./vercel.json" (some "y") (fun _ => .ok (Json.obj [("crons", .arr [])]))
      = .ok (Json.obj [("crons", .arr [])]) :=
  ⟨(C5_loadConfig_errors "./vercel.json" (fun _ => .error "eof")).1,
   ((C5_loadConfig_errors "./vercel.json" (fun _ => .error "Unexpected token")).2.1
      "not json" "Unexpected token" rfl).1,
   ((C5_loadConfig_errors "./vercel.json"
      (fun _ => .ok (Json.obj [("other", .str "data")]))).2.2.1
      "x" (Json.obj [("other", .str "data")]) rfl (by simp) rfl).1,
   (C5_loadConfig_errors "./vercel.json"
      (fun _ => .ok (Json.obj [("crons", .arr [])]))).2.2.2
      "y" (Json.obj [("crons", .arr [])]) rfl rfl⟩

/-- C5 counterexample: a config file whose JSON text is `null` parses
successfully to a top-level value that certainly lacks an array-typed
`crons` field, yet `loadConfig` does not produce `ConfigShapeError`: the
falsiness check `!config.crons` dereferences `null` and the resulting
`TypeError` is rethrown unwrapped. -/
theorem C5_loadConfig_errors_counterexample :
    loadConfig "./vercel.json" (some "null") (fun _ => .ok Json.null)
      = .error (.nullConfigAccess "./vercel.json") ∧
    (Except.error (CronError.nullConfigAccess "./vercel.json") : Except CronError Json)
      ≠ .error .configShapeError := by
  refine ⟨rfl, ?_⟩
  simp

/-! ### executeOne: exact-path lookup on the unfiltered list -/

/-- C6: `executeOne` propagates a failed reload untouched; on a loaded
config it looks the path up by exact string equality in the unfiltered
`crons` list (the filter option is not even a parameter of the lookup),
raises `JobNotFound` exactly when no job's path equals the argument, and
otherwise dispatches the found job and returns a single result whose
`path` equals the argument. -/
theorem C6_executeOne_unfiltered_lookup (envD : DispatchEnv) (e : CronError)
    (cfg : VercelCronConfig) (p : String) (st : RunnerState) :
    (executeOne envD (.error e) p st = .error (e, st)) ∧
    (cfg.crons.find? (fun j => j.path == p) = none ↔ ∀ j ∈ cfg.crons, j.path ≠ p) ∧
    (cfg.crons.find? (fun j => j.path == p) = none →
      executeOne envD (.ok cfg) p st
        = .error (.jobNotFound p, { st with config := some cfg })) ∧
    (∀ job, cfg.crons.find? (fun j => j.path == p) = some job →
      executeOne envD (.ok cfg) p st
        = .ok ((executeCron envD job st.stats).1,
            { st with config := some cfg, stats := (executeCron envD job st.stats).2 }) ∧
      (executeCron envD job st.stats).1.path = p) := by
  refine ⟨rfl, ?_, ?_, ?_⟩
  · rw [List.find?_eq_none]
    simp
  · intro h
    simp [executeOne, h]
  · intro job hf
    have hpath : job.path = p := by
      have := List.find?_some hf
      simpa using this
    refine ⟨by simp [executeOne, hf], ?_⟩
    rw [(executeCron_fst_path envD job st.stats).1, hpath]

/-- Witness for C6 at the spec examples: a present path is dispatched and
echoed back; an absent path raises `JobNotFound`. -/
theorem C6_executeOne_unfiltered_lookup_witness :
    (executeCron ⟨.response true 200, 1, 1⟩ ⟨"/api/crons/test1", "* * * * *"⟩
        initialState.stats).1.path = "/api/crons/test1" ∧
    executeOne ⟨.response true 200, 1, 1⟩
        (.ok ⟨[⟨"/api/crons/test1", "* * * * *"⟩]⟩) "/does/not/exist" initialState
      = .error (.jobNotFound "/does/not/exist",
          { initialState with config := some ⟨[⟨"/api/crons/test1", "* * * * *"⟩]⟩ }) :=
  ⟨((C6_executeOne_unfiltered_lookup ⟨.response true 200, 1, 1⟩ .noMatchingJobs
      ⟨[⟨"/api/crons/test1", "* * * * *"⟩]⟩ "/api/crons/test1" initialState).2.2.2
      ⟨"/api/crons/test1", "* * * * *"⟩ rfl).2,
   (C6_executeOne_unfiltered_lookup ⟨.response true 200, 1, 1⟩ .noMatchingJobs
      ⟨[⟨"/api/crons/test1", "* * * * *"⟩]⟩ "/does/not/exist" initialState).2.2.1 rfl⟩

/-! ### Always-reload policy -/

/-- C7: `start`, `executeAll` and `executeOne` act only on the config
loaded at the top of the call — a failed load propagates with the state
untouched, and on a successful load the outcome is independent of
whatever config was cached in memory — whereas `listJobs` alone reuses a
cached config when one exists (ignoring what a fresh load would return)
and loads only otherwise. -/
theorem C7_always_reload (validate : String → Bool) (filter : Option String)
    (envs : Nat → DispatchEnv) (envD : DispatchEnv) (p : String) (e : CronError)
    (load : Except CronError VercelCronConfig) (cfg : VercelCronConfig)
    (st : RunnerState) (c : Option VercelCronConfig) :
    (start validate filter (.error e) st = .error (e, st)) ∧
    (start validate filter (.ok cfg) { st with config := c }
      = start validate filter (.ok cfg) { st with config := none }) ∧
    (executeAll filter envs (.error e) st = .error (e, st)) ∧
    (executeAll filter envs (.ok cfg) { st with config := c }
      = executeAll filter envs (.ok cfg) { st with config := none }) ∧
    (executeOne envD (.error e) p st = .error (e, st)) ∧
    (executeOne envD (.ok cfg) p { st with config := c }
      = executeOne envD (.ok cfg) p { st with config := none }) ∧
    (listJobs filter load { st with config := some cfg }
      = .ok (filterJobs filter cfg.crons, { st with config := some cfg })) ∧
    (listJobs filter (.ok cfg) { st with config := none }
      = .ok (filterJobs filter cfg.crons, { st with config := some cfg })) ∧
    (listJobs filter (.error e) { st with config := none }
      = .error (e, { st with config := none })) :=
  ⟨rfl, rfl, rfl, rfl, rfl, rfl, rfl, rfl, rfl⟩

end Runner
